import Mathlib

/-!
# Verification of the rusty_exchange_dashboard fan-out engine

Shallow embedding of `src/main.rs` and `src/sse.rs`.

The fan-out core is `tokio::sync::broadcast`: a bounded multicast channel
with one producer and many independent consumers.  We model a channel by
the full list of frames ever published (`history`, oldest first) together
with the fixed `capacity`; the retained backlog is the last `capacity`
entries of `history` and the write position ("tail") is `history.length`.
A receiver is a cursor `pos` into `history`: the index of the next frame
it will read.  This matches tokio's semantics as used by the repository:

* `send` appends to the history and never blocks (oldest-drop overflow);
* `subscribe` starts a receiver at the current write position, so it
  observes only frames sent afterwards;
* `recv` returns the frame at the cursor if it is still retained,
  `Lagged n` (jumping the cursor to the oldest retained frame) if the
  cursor's frame was already evicted, where `n` counts the evicted,
  never-to-be-delivered frames, and would suspend (`empty`) when the
  cursor is at the tail.  `closed` can only happen once every sender is
  dropped; this program keeps the senders in `AppState` for the process
  lifetime, so `recv` never returns it here.
-/

/-- A wire frame: the bytes published on a channel (`Arc<Bytes>` in the
source). Modelled as a `String`. -/
abbrev Frame := String

/-- State of one `tokio::sync::broadcast` channel as used in `main.rs`:
the fixed capacity and the list of all frames ever sent, oldest first. -/
structure Channel where
  capacity : Nat
  history : List Frame
deriving DecidableEq

/-- A broadcast receiver: the index into `history` of the next frame this
subscriber will read. -/
structure Receiver where
  pos : Nat
deriving DecidableEq

/-- Result of `Receiver::recv`: a frame, `RecvError::Lagged(n)`, a pending
wait (no new frame yet), or `RecvError::Closed`. -/
inductive RecvResult where
  | frame (f : Frame)
  | lagged (n : Nat)
  | empty
  | closed
deriving DecidableEq

/-- `broadcast::Sender::send`: append to the backlog, never blocks; the
oldest retained frame is implicitly evicted once more than `capacity`
frames exist. -/
def Channel.send (ch : Channel) (f : Frame) : Channel :=
  ⟨ch.capacity, ch.history ++ [f]⟩

/-- Sending a list of frames in order. -/
def Channel.sendAll (ch : Channel) (fs : List Frame) : Channel :=
  fs.foldl Channel.send ch

/-- `broadcast::Sender::subscribe`: a new receiver positioned at the
current tail; it sees only frames sent after this call. -/
def Channel.subscribe (ch : Channel) : Receiver :=
  ⟨ch.history.length⟩

/-- `broadcast::Receiver::recv` (one step, on the current channel state):
if the cursor is at the tail there is nothing to read yet; if the
cursor's next frame was evicted (more than `capacity` frames ahead of
it), return `Lagged` with the number of missed frames and jump to the
oldest retained frame; otherwise deliver the frame at the cursor. -/
def Channel.recv (ch : Channel) (r : Receiver) : RecvResult × Receiver :=
  if ch.history.length ≤ r.pos then
    (.empty, r)
  else if ch.capacity < ch.history.length - r.pos then
    (.lagged (ch.history.length - ch.capacity - r.pos), ⟨ch.history.length - ch.capacity⟩)
  else
    (.frame (ch.history.getD r.pos ""), ⟨r.pos + 1⟩)

/-- Perform `n` successive `recv` calls, collecting the data frames
delivered (in order). -/
def Channel.drain (ch : Channel) : Receiver → Nat → List Frame × Receiver
  | r, 0 => ([], r)
  | r, n + 1 =>
    match ch.recv r with
    | (.frame f, r') =>
      let rest := ch.drain r' n
      (f :: rest.1, rest.2)
    | (_, r') =>
      let rest := ch.drain r' n
      (rest.1, rest.2)

/-!
## Registry (HashMap) operations

`main.rs` keeps `HashMap<String, _>` registries.  We model them as
association lists; `insertA` replaces an existing binding in place
(HashMap insert semantics) and `lookupA` is HashMap lookup.
-/

/-- HashMap lookup on an association list. -/
def lookupA {α : Type} : List (String × α) → String → Option α
  | [], _ => none
  | (k', v) :: rest, k => if k' = k then some v else lookupA rest k

/-- HashMap insert on an association list: replaces an existing binding
for the key, otherwise appends. -/
def insertA {α : Type} : List (String × α) → String → α → List (String × α)
  | [], k, v => [(k, v)]
  | (k', v') :: rest, k, v =>
    if k' = k then (k, v) :: rest else (k', v') :: insertA rest k v

/-!
## `sse_handler` (src/sse.rs)

The handler resolves the requested instrument in the registry; an unknown
key yields an immediate 404 with a plain-text body naming the key, and no
subscription is created.  A known key subscribes a fresh receiver at the
current tail of that instrument's channel.
-/

/-- Outcome of starting `sse_handler`: either the not-found response
(status, content type, body) or a streaming session holding a fresh
subscription on the resolved instrument's channel. -/
inductive SseStart where
  | notFound (status : Nat) (contentType : String) (body : String)
  | stream (instrument : String) (rx : Receiver)
deriving DecidableEq

/-- The subscription held by an `sse_handler` outcome, if any. -/
def SseStart.subscription : SseStart → Option Receiver
  | .notFound _ _ _ => none
  | .stream _ rx => some rx

/-- `sse_handler` start-up (src/sse.rs lines 7-27): look up the
instrument in `app_state.instrument_tx`; on a miss return a 404 response
with body `Instrument '<key>' not found`; on a hit subscribe. -/
def sse_handler (instrument_tx : List (String × Channel)) (instrument : String) : SseStart :=
  match lookupA instrument_tx instrument with
  | none =>
    .notFound 404 "text/plain"
      ("Instrument \x27" ++ instrument ++ "\x27 not found")
  | some tx => .stream instrument tx.subscribe

/-!
## The streaming loop (src/sse.rs lines 30-45)

The `stream!` loop repeatedly calls `recv`; an `Ok(msg)` is yielded to
the connection as-is, a `Lagged(skipped)` produces a distinct warn frame,
and `Closed` ends the stream.  We model an execution of one session as a
trace of interleaved publishes (by the pump on this topic) and receive
calls (by this session), and record the wire output with its provenance.
-/

/-- One item written by the session to its connection: a data frame
(`Ok(msg)` branch) or a lag-notification (`Lagged` branch). -/
inductive SseOut where
  | data (f : Frame)
  | warnLagged (n : Nat)
deriving DecidableEq

/-- The bytes actually written for one output item: data frames pass
through unchanged; the lag notification is
`event: warn\ndata: {"lagged": <n>}\n\n`. -/
def SseOut.wire : SseOut → Frame
  | .data f => f
  | .warnLagged n => "event: warn\ndata: \x7b\"lagged\": " ++ toString n ++ "\x7d\n\n"

/-- The data frames among a session's outputs (the lag notifications
filtered out). -/
def SseOut.dataFrames (ws : List SseOut) : List Frame :=
  ws.filterMap fun w =>
    match w with
    | .data f => some f
    | .warnLagged _ => none

/-- One event in the life of a streaming session: either the pump
publishes a frame to the session's topic, or the session's loop performs
one `recv`. -/
inductive SessionOp where
  | publish (f : Frame)
  | receive

/-- The frames published to the topic during a trace, in order. -/
def SessionOp.publishes : List SessionOp → List Frame
  | [] => []
  | .publish f :: ops => f :: publishes ops
  | .receive :: ops => publishes ops

/-- A streaming session mid-execution: the current channel state, the
session's receiver, and everything written to the connection so far. -/
structure Session where
  ch : Channel
  r : Receiver
  written : List SseOut

/-- One step of a session execution.  A `publish` applies
`broadcast::Sender::send`; a `receive` performs one iteration of the
`stream!` loop (src/sse.rs lines 31-44): `Ok(msg)` writes the frame,
`Lagged(n)` writes the warn frame, a pending `recv` writes nothing, and
`Closed` (unreachable here: the senders are never dropped) writes
nothing and would end the loop. -/
def Session.step (s : Session) (op : SessionOp) : Session :=
  match op with
  | .publish f => ⟨s.ch.send f, s.r, s.written⟩
  | .receive =>
    match s.ch.recv s.r with
    | (.frame f, r') => ⟨s.ch, r', s.written ++ [.data f]⟩
    | (.lagged n, r') => ⟨s.ch, r', s.written ++ [.warnLagged n]⟩
    | (_, r') => ⟨s.ch, r', s.written⟩

/-- Run a session over a trace of events. -/
def Session.run (s : Session) : List SessionOp → Session
  | [] => s
  | op :: ops => (s.step op).run ops

/-- The invariant tying a session's output to the topic history: the
cursor never moves backwards past `t0` (where it started), never runs
past the tail, and the data frames written so far are an order-preserving
subsequence of the history slice between `t0` and the cursor. -/
def SessionInv (t0 : Nat) (s : Session) : Prop :=
  t0 ≤ s.r.pos ∧ s.r.pos ≤ s.ch.history.length ∧
    List.Sublist (SseOut.dataFrames s.written) ((s.ch.history.drop t0).take (s.r.pos - t0))

/-!
## JSON documents (`serde_json::Value`)

The pump and the start-up loader treat payloads as `serde_json::Value`.
We model a parsed value structurally; what `serde_json::from_str` returns
for a given input string is external to this program, so functions below
take the parse result as input.  Numbers (`f64`) are carried opaquely,
modelled by `Rat`; the program never computes with them.
-/

/-- A parsed `serde_json::Value`. -/
inductive Json where
  | null
  | bool (b : Bool)
  | num (q : Rat)
  | str (s : String)
  | arr (xs : List Json)
  | obj (fields : List (String × Json))

/-- `Value::get(key)` on an object (field lookup); `None` on any other
variant. -/
def Json.get (j : Json) (key : String) : Option Json :=
  match j with
  | .obj fields => lookupA fields key
  | _ => none

/-- `Value::as_str`. -/
def Json.asStr : Json → Option String
  | .str s => some s
  | _ => none

/-- `Value::as_f64`. -/
def Json.asNum : Json → Option Rat
  | .num q => some q
  | _ => none

mutual

/-- Compact serialization of a `serde_json::Value`
(`serde_json::to_string`).  String escaping and `f64` formatting are
abstracted (no claim depends on the rendered text). -/
def Json.serialize : Json → String
  | .null => "null"
  | .bool true => "true"
  | .bool false => "false"
  | .num q => toString q
  | .str s => "\"" ++ s ++ "\""
  | .arr xs => "[" ++ String.intercalate "," (Json.serializeItems xs) ++ "]"
  | .obj fields => "\x7b" ++ String.intercalate "," (Json.serializeFields fields) ++ "\x7d"

def Json.serializeItems : List Json → List String
  | [] => []
  | x :: xs => x.serialize :: Json.serializeItems xs

def Json.serializeFields : List (String × Json) → List String
  | [] => []
  | (k, v) :: fields => ("\"" ++ k ++ "\":" ++ v.serialize) :: Json.serializeFields fields

end

/-- `serde_json::to_string` as the fallible call the source makes with
`?` (main.rs line 148).  Serializing a `serde_json::Value` cannot fail:
its maps are string-keyed and its numbers finite, so the result is
always `Ok`. -/
def Json.serializeE (j : Json) : Except String String :=
  .ok j.serialize

/-!
## The ingestion pump (`redis_pump`, src/main.rs lines 130-171)

After the initial connection and subscription to the `market_data`
channel, the pump loops forever over `pubsub.get_message()`.  One loop
iteration is modelled as a step over an event: a read error, a payload
that is not a string, or a message payload together with its JSON parse
result.
-/

/-- One upstream event observed by the pump loop. -/
inductive PumpEvent where
  | recvErr
  | payloadNotString
  | msg (payload : String) (parsed : Option Json)

/-- The externally visible effect of one pump iteration. -/
inductive PumpAction where
  | published (instrument : String) (frame : Frame)
  | warned (msg : String)
  | slept (ms : Nat)
deriving DecidableEq

/-- Outcome of one pump iteration: the loop is re-entered with the new
channel states, or the function returns with an error. -/
inductive PumpOutcome where
  | reenter (instrument_tx : List (String × Channel)) (act : PumpAction)
  | returned (err : String)

/-- One iteration of the `redis_pump` loop (src/main.rs lines 139-170):
a read error sleeps 100 ms and retries; a non-string payload logs a
warning; a non-JSON payload logs a warning; a document without a string
`instrument` field logs a warning; an instrument missing from the
registry logs a warning; otherwise the document is serialized to an SSE
frame `data: <json>\n\n` and broadcast on that instrument's channel
(`let _ = tx.send(bytes)` — a send with no listeners is ignored). -/
def redis_pump_step (instrument_tx : List (String × Channel)) (ev : PumpEvent) : PumpOutcome :=
  match ev with
  | .recvErr => .reenter instrument_tx (.slept 100)
  | .payloadNotString =>
    .reenter instrument_tx (.warned "Warning: Failed to get payload as string from Redis message")
  | .msg payload parsed =>
    match parsed with
    | none =>
      .reenter instrument_tx
        (.warned ("Warning: Failed to parse market_data message as JSON: " ++ payload))
    | some json_data =>
      match (json_data.get "instrument").bind Json.asStr with
      | none =>
        .reenter instrument_tx
          (.warned "Warning: Received market_data message without instrument field")
      | some instrument_name =>
        match lookupA instrument_tx instrument_name with
        | none =>
          .reenter instrument_tx
            (.warned ("Warning: Received message for unknown instrument: " ++ instrument_name))
        | some tx =>
          match Json.serializeE json_data with
          | .error e => .returned e
          | .ok json_str =>
            let sse_message := "data: " ++ json_str ++ "\n\n"
            .reenter (insertA instrument_tx instrument_name (tx.send sse_message))
              (.published instrument_name sse_message)

/-- Running the pump loop over a finite prefix of upstream events:
either every iteration re-enters the loop and the actions are collected,
or some iteration makes the function return. -/
def redis_pump_run :
    List (String × Channel) → List PumpEvent →
      Except String (List (String × Channel) × List PumpAction)
  | txs, [] => .ok (txs, [])
  | txs, ev :: evs =>
    match redis_pump_step txs ev with
    | .returned e => .error e
    | .reenter txs' a =>
      match redis_pump_run txs' evs with
      | .error e => .error e
      | .ok (tf, acts) => .ok (tf, a :: acts)

/-!
## Heartbeat Emitter

The heartbeat task itself is not among the source files; only its frame
format is pinned down by the repository's own test
(`test_heartbeat_message_format` in src/main.rs: the frame is
`: keep-alive\n\n`).  The emitter is therefore modelled from the spec.
-/

/-- The heartbeat wire frame, as fixed by `test_heartbeat_message_format`
in src/main.rs: a comment-style SSE line with no event/data payload. -/
def heartbeat_frame : Frame := ": keep-alive\n\n"

/-- Modelled from the spec: the Heartbeat Emitter's fixed tick interval
("e.g. every 15s"), independent of message traffic.  The emitter task is
absent from the source files; this value records the spec's schedule. -/
def heartbeat_interval_ms : Nat := 15000

/-- Modelled from the spec: one tick of the Heartbeat Emitter, absent
from the source files — "on each tick, publishes a designated heartbeat
Wire Frame to every Topic in the Registry", using the same
`broadcast::Sender::send` publish operation as data frames. -/
def heartbeat_tick (instrument_tx : List (String × Channel)) : List (String × Channel) :=
  instrument_tx.map fun p => (p.1, p.2.send heartbeat_frame)

/-!
## Start-up (`load_static_data` and `main`, src/main.rs)

`load_static_data` reads two JSON blobs and per-instrument limits from
Redis.  The Redis connection and the JSON parser are external
collaborators; a `RedisStaticStore` packages their observable responses:
`getString`/`getNum` are `redis::cmd("GET").query::<String>/::<f64>`
(`.error` covers connection failures, missing keys and type errors, all
of which the source propagates with `?` or defaults away), and
`parseArr` is `serde_json::from_str::<Vec<Value>>` (`none` = parse
error).
-/

/-- `InstrumentDetails` (src/main.rs lines 38-46).  `f64` fields are
carried opaquely as `Rat`. -/
structure InstrumentDetails where
  name : String
  underlying : String
  absolute_limit : Rat
  delta_limit : Rat
  tick_size : Rat
  max_order_size : Rat
deriving DecidableEq

/-- Observable responses of the external Redis store and JSON parser
during start-up. -/
structure RedisStaticStore where
  getString : String → Except String String
  getNum : String → Except String Rat
  parseArr : String → Option (List Json)

/-- `load_static_data` (src/main.rs lines 49-113): read
`static_data:underlyings` (a `?` failure aborts), parse it with
`unwrap_or_else(|_| vec![])`, collect `(name, delta_limit)` pairs; read
`static_data:instruments` likewise; for each entry carrying string
`name`/`underlying` and numeric `tick_size`, read
`static_data:<name>:absolute_limit` with default `1000.0`, take the
underlying's delta limit with default `20.0`, a fixed
`max_order_size` of `10000.0`, and insert into the registry. -/
def load_static_data (store : RedisStaticStore) :
    Except String (List (String × InstrumentDetails)) := do
  let underlyings_data_str ← store.getString "static_data:underlyings"
  let underlyings_data := (store.parseArr underlyings_data_str).getD []
  let delta_limits := underlyings_data.foldl
    (fun acc u =>
      match (u.get "name").bind Json.asStr, (u.get "delta_limit").bind Json.asNum with
      | some nm, some d => insertA acc nm d
      | _, _ => acc)
    ([] : List (String × Rat))
  let instruments_data_str ← store.getString "static_data:instruments"
  let instruments_data := (store.parseArr instruments_data_str).getD []
  let instruments := instruments_data.foldl
    (fun acc inst =>
      match (inst.get "name").bind Json.asStr, (inst.get "underlying").bind Json.asStr,
          (inst.get "tick_size").bind Json.asNum with
      | some nm, some und, some tick =>
        let absolute_limit :=
          ((store.getNum ("static_data:" ++ nm ++ ":absolute_limit")).toOption).getD 1000
        let delta_limit := (lookupA delta_limits und).getD 20
        insertA acc nm ⟨nm, und, absolute_limit, delta_limit, tick, 10000⟩
      | _, _, _ => acc)
    ([] : List (String × InstrumentDetails))
  pure instruments

/-- `create_instrument_channels` (src/main.rs lines 116-127): one
broadcast channel of capacity 512 per instrument key. -/
def create_instrument_channels (instruments : List (String × InstrumentDetails)) :
    List (String × Channel) :=
  instruments.map fun p => (p.1, ⟨512, []⟩)

/-- Outcome of process start-up: refusal with a diagnostic (a panicking
`expect` or `std::process::exit(1)`), or serving with a registry and its
channels. -/
inductive StartupResult where
  | refused (diagnostic : String)
  | serving (registry : List (String × InstrumentDetails))
      (instrument_tx : List (String × Channel))

/-- `main` start-up sequence (src/main.rs lines 189-229): load the
config (`expect`), open the Redis client (`expect`, folded into
`configAndClient`), load static data (`expect`), create the channels,
parse templates (`exit(1)` on failure), then serve. -/
def main_startup (configAndClient : Except String Unit) (store : RedisStaticStore)
    (templates : Except String Unit) : StartupResult :=
  match configAndClient with
  | .error e => .refused ("Failed to load configuration: " ++ e)
  | .ok _ =>
    match load_static_data store with
    | .error e => .refused ("Failed to load static data: " ++ e)
    | .ok instruments =>
      match templates with
      | .error e => .refused ("Template parsing error: " ++ e)
      | .ok _ => .serving instruments (create_instrument_channels instruments)

/-!
## `get_instruments` (src/main.rs lines 174-187)

The endpoint maps over `instrument_details`; the closure binds the map
VALUE (the whole `InstrumentDetails`) to a variable named `underlying`
and serializes it under the JSON key `"underlying"` via the struct's
`Serialize` derive.
-/

/-- The `Serialize` derive for `InstrumentDetails`: an object with the
six fields in declaration order. -/
def InstrumentDetails.toJson (d : InstrumentDetails) : Json :=
  .obj [("name", .str d.name), ("underlying", .str d.underlying),
    ("absolute_limit", .num d.absolute_limit), ("delta_limit", .num d.delta_limit),
    ("tick_size", .num d.tick_size), ("max_order_size", .num d.max_order_size)]

/-- `get_instruments`: the JSON array the endpoint returns.  Each entry
is `json!({"name": name, "underlying": underlying})` where the closure's
`underlying` binding is the full `InstrumentDetails` value, serialized
whole.  The handler reads `app_state` and builds this value; it mutates
nothing. -/
def get_instruments (instrument_details : List (String × InstrumentDetails)) : Json :=
  .arr (instrument_details.map fun p =>
    .obj [("name", .str p.1), ("underlying", p.2.toJson)])

/-- A store whose Redis GETs succeed but whose stored static data is not
parseable as JSON (the per-instrument limit keys are absent). -/
def badStaticStore : RedisStaticStore :=
  ⟨fun _ => .ok "not json", fun _ => .error "nil", fun _ => none⟩

/-- A store whose Redis GETs fail outright (upstream unreachable). -/
def downStaticStore : RedisStaticStore :=
  ⟨fun _ => .error "connection refused", fun _ => .error "connection refused", fun _ => none⟩

/-- The repository's own sample instrument (from the tests in
src/main.rs). -/
def aaplDetails : InstrumentDetails :=
  ⟨"AAPL", "EQUITY", 1000, 50000, 1 / 100, 10000⟩

/-! ## Theorems -/

theorem Channel.sendAll_capacity (ch : Channel) (fs : List Frame) :
    (ch.sendAll fs).capacity = ch.capacity := by
  induction fs generalizing ch with
  | nil => rfl
  | cons f fs ih => simpa [Channel.sendAll, Channel.send] using ih ⟨ch.capacity, ch.history ++ [f]⟩

theorem Channel.sendAll_history (ch : Channel) (fs : List Frame) :
    (ch.sendAll fs).history = ch.history ++ fs := by
  induction fs generalizing ch with
  | nil => simp [Channel.sendAll]
  | cons f fs ih =>
    have := ih ⟨ch.capacity, ch.history ++ [f]⟩
    simpa [Channel.sendAll, Channel.send] using this

/-- An in-sync receiver (`tail - pos ≤ capacity`, cursor strictly before
the tail) receives exactly the frame at its cursor. -/
theorem Channel.recv_insync (ch : Channel) (r : Receiver)
    (hlt : r.pos < ch.history.length)
    (hsync : ch.history.length - r.pos ≤ ch.capacity) :
    ch.recv r = (.frame (ch.history.getD r.pos ""), ⟨r.pos + 1⟩) := by
  unfold Channel.recv
  rw [if_neg (by omega), if_neg (by omega)]

/-- A receiver whose next frame was evicted gets `Lagged` with the exact
count of frames it missed, and is repositioned at the oldest retained
frame. -/
theorem Channel.recv_lagged (ch : Channel) (r : Receiver)
    (hlag : ch.capacity < ch.history.length - r.pos) :
    ch.recv r =
      (.lagged (ch.history.length - ch.capacity - r.pos), ⟨ch.history.length - ch.capacity⟩) := by
  unfold Channel.recv
  rw [if_neg (by omega), if_pos hlag]

/-- Draining an in-sync receiver delivers the contiguous slice of the
history starting at its cursor, in publish order. -/
theorem Channel.drain_insync (ch : Channel) :
    ∀ (k : Nat) (r : Receiver), r.pos + k ≤ ch.history.length →
      ch.history.length - r.pos ≤ ch.capacity →
      ch.drain r k = ((ch.history.drop r.pos).take k, ⟨r.pos + k⟩)
  | 0, r, _, _ => by simp [Channel.drain]
  | k + 1, r, hk, hsync => by
    have hlt : r.pos < ch.history.length := by omega
    have hrec := Channel.drain_insync ch k ⟨r.pos + 1⟩ (by simpa using by omega)
      (by simp; omega)
    simp only [Channel.drain, Channel.recv_insync ch r hlt hsync, hrec]
    have hdrop : ch.history.drop r.pos =
        ch.history.getD r.pos "" :: ch.history.drop (r.pos + 1) := by
      rw [List.getD_eq_getElem ch.history "" hlt]
      exact List.drop_eq_getElem_cons hlt
    rw [hdrop]
    simp [Nat.add_assoc, Nat.add_comm 1 k]

theorem lookupA_of_mem {α : Type} (l : List (String × α)) (k : String) (v : α)
    (hnd : (l.map Prod.fst).Nodup) (hmem : (k, v) ∈ l) :
    lookupA l k = some v := by
  induction l with
  | nil => cases hmem
  | cons p rest ih =>
    obtain ⟨k', v'⟩ := p
    simp only [List.map_cons, List.nodup_cons] at hnd
    rcases List.mem_cons.mp hmem with heq | hmem'
    · obtain ⟨h1, h2⟩ := Prod.mk.injEq .. ▸ heq
      simp [lookupA, h1.symm, h2]
    · have hne : k' ≠ k := by
        intro h
        exact hnd.1 (by simpa [h] using List.mem_map_of_mem Prod.fst hmem')
      simp [lookupA, hne, ih hnd.2 hmem']

theorem Session.run_ch_history (s : Session) (ops : List SessionOp) :
    ((s.run ops).ch).history = s.ch.history ++ SessionOp.publishes ops := by
  induction ops generalizing s with
  | nil => simp [Session.run, SessionOp.publishes]
  | cons op ops ih =>
    cases op with
    | publish f =>
      simp [Session.run, Session.step, SessionOp.publishes, ih, Channel.send]
    | receive =>
      have hch : (s.step .receive).ch = s.ch := by
        unfold Session.step
        rcases h : s.ch.recv s.r with ⟨res, r'⟩
        cases res <;> simp [h]
      simp only [Session.run, SessionOp.publishes]
      rw [ih, hch]

theorem take_sublist_of_le {α : Type} (l : List α) {m n : Nat} (h : m ≤ n) :
    List.Sublist (l.take m) (l.take n) := by
  have : l.take m = (l.take n).take m := by
    rw [List.take_take, Nat.min_eq_left h]
  rw [this]
  exact List.take_sublist m (l.take n)

theorem SseOut.dataFrames_append (ws ws' : List SseOut) :
    SseOut.dataFrames (ws ++ ws') = SseOut.dataFrames ws ++ SseOut.dataFrames ws' := by
  simp [SseOut.dataFrames]

theorem SessionInv.step {t0 : Nat} {s : Session} (hinv : SessionInv t0 s)
    (op : SessionOp) : SessionInv t0 (s.step op) := by
  obtain ⟨h0, h1, h2⟩ := hinv
  cases op with
  | publish f =>
    refine ⟨h0, by simp [Session.step, Channel.send]; omega, ?_⟩
    simp only [Session.step, Channel.send]
    have hdrop : ((s.ch.history ++ [f]).drop t0).take (s.r.pos - t0)
        = (s.ch.history.drop t0).take (s.r.pos - t0) := by
      rw [List.drop_append_of_le_length (by omega),
        List.take_append_of_le_length (by simp; omega)]
    exact hdrop ▸ h2
  | receive =>
    unfold Session.step
    rcases hr : s.ch.recv s.r with ⟨res, r'⟩
    unfold Channel.recv at hr
    split at hr
    · -- cursor at the tail: pending, nothing changes
      rcases hr with ⟨rfl, rfl⟩
      exact ⟨h0, h1, h2⟩
    · split at hr
      · -- lagged: cursor jumps forward to the oldest retained frame
        rcases hr with ⟨rfl, rfl⟩
        rename_i hne hlag
        refine ⟨show t0 ≤ s.ch.history.length - s.ch.capacity by omega,
          show s.ch.history.length - s.ch.capacity ≤ s.ch.history.length by omega, ?_⟩
        show List.Sublist (SseOut.dataFrames (s.written ++
            [SseOut.warnLagged (s.ch.history.length - s.ch.capacity - s.r.pos)]))
          ((s.ch.history.drop t0).take (s.ch.history.length - s.ch.capacity - t0))
        have hmono : List.Sublist ((s.ch.history.drop t0).take (s.r.pos - t0))
            ((s.ch.history.drop t0).take (s.ch.history.length - s.ch.capacity - t0)) :=
          take_sublist_of_le _ (by omega)
        rw [SseOut.dataFrames_append]
        have hlagframe : SseOut.dataFrames [SseOut.warnLagged
            (s.ch.history.length - s.ch.capacity - s.r.pos)] = [] := by
          simp [SseOut.dataFrames]
        rw [hlagframe, List.append_nil]
        exact h2.trans hmono
      · -- in-sync: the frame at the cursor is delivered
        rcases hr with ⟨rfl, rfl⟩
        rename_i hne hsync
        have hlt : s.r.pos < s.ch.history.length := by omega
        refine ⟨show t0 ≤ s.r.pos + 1 by omega,
          show s.r.pos + 1 ≤ s.ch.history.length by omega, ?_⟩
        show List.Sublist
          (SseOut.dataFrames (s.written ++ [SseOut.data (s.ch.history.getD s.r.pos "")]))
          ((s.ch.history.drop t0).take (s.r.pos + 1 - t0))
        rw [SseOut.dataFrames_append]
        have hframe : SseOut.dataFrames [SseOut.data (s.ch.history.getD s.r.pos "")]
            = [s.ch.history.getD s.r.pos ""] := by
          simp [SseOut.dataFrames]
        rw [hframe]
        have hsucc : (s.ch.history.drop t0).take (s.r.pos + 1 - t0)
            = (s.ch.history.drop t0).take (s.r.pos - t0) ++ [s.ch.history.getD s.r.pos ""] := by
          have hstep : s.r.pos + 1 - t0 = (s.r.pos - t0) + 1 := by omega
          rw [hstep, List.take_succ]
          have hget : (s.ch.history.drop t0)[s.r.pos - t0]? =
              some (s.ch.history.getD s.r.pos "") := by
            rw [List.getElem?_drop, List.getD_eq_getElem s.ch.history "" hlt]
            have harg : t0 + (s.r.pos - t0) = s.r.pos := by omega
            rw [harg, List.getElem?_eq_getElem hlt]
          rw [hget]
          rfl
        rw [hsucc]
        exact h2.append (List.Sublist.refl _)

theorem SessionInv.run {t0 : Nat} {s : Session} (hinv : SessionInv t0 s)
    (ops : List SessionOp) : SessionInv t0 (s.run ops) := by
  induction ops generalizing s with
  | nil => exact hinv
  | cons op ops ih => exact ih (hinv.step op)

theorem redis_pump_step_reenter (txs : List (String × Channel)) (ev : PumpEvent) :
    ∃ txs' a, redis_pump_step txs ev = .reenter txs' a := by
  cases ev with
  | recvErr => exact ⟨txs, .slept 100, rfl⟩
  | payloadNotString =>
    exact ⟨txs, .warned "Warning: Failed to get payload as string from Redis message", rfl⟩
  | msg payload parsed =>
    cases parsed with
    | none =>
      exact ⟨txs,
        .warned ("Warning: Failed to parse market_data message as JSON: " ++ payload), rfl⟩
    | some j =>
      cases hi : (j.get "instrument").bind Json.asStr with
      | none =>
        refine ⟨txs, .warned "Warning: Received market_data message without instrument field", ?_⟩
        simp [redis_pump_step, hi]
      | some nm =>
        cases hl : lookupA txs nm with
        | none =>
          refine ⟨txs, .warned ("Warning: Received message for unknown instrument: " ++ nm), ?_⟩
          simp [redis_pump_step, hi, hl]
        | some tx =>
          refine ⟨insertA txs nm (tx.send ("data: " ++ j.serialize ++ "\n\n")),
            .published nm ("data: " ++ j.serialize ++ "\n\n"), ?_⟩
          simp [redis_pump_step, hi, hl, Json.serializeE]

theorem lookupA_heartbeat_tick (txs : List (String × Channel)) (k : String) :
    lookupA (heartbeat_tick txs) k = (lookupA txs k).map (fun ch => ch.send heartbeat_frame) := by
  induction txs with
  | nil => rfl
  | cons p rest ih =>
    obtain ⟨k', ch⟩ := p
    by_cases h : k' = k
    · simp [heartbeat_tick, lookupA, h]
    · simpa [heartbeat_tick, lookupA, h] using ih

/-- Claim C1: if more than `capacity` frames are published on a Topic
between two of a subscriber's `receive` calls, the next `receive` yields
`Lagged(k)` with `k` exactly the number of frames the subscriber missed
(those evicted unread), and subsequent `receive` calls resume normal
in-order delivery from the oldest retained frame of the backlog,
draining the retained tail of the Topic. -/
theorem lag_count_exact (ch : Channel) (r : Receiver) (fs : List Frame)
    (hpos : r.pos ≤ ch.history.length) (hover : ch.capacity < fs.length) :
    (ch.sendAll fs).recv r =
      (.lagged (ch.history.length + fs.length - ch.capacity - r.pos),
        ⟨ch.history.length + fs.length - ch.capacity⟩)
    ∧ (ch.sendAll fs).drain ⟨ch.history.length + fs.length - ch.capacity⟩ ch.capacity =
      ((ch.history ++ fs).drop (ch.history.length + fs.length - ch.capacity),
        ⟨ch.history.length + fs.length⟩) := by
  have hh := Channel.sendAll_history ch fs
  have hc := Channel.sendAll_capacity ch fs
  have hlen : (ch.sendAll fs).history.length = ch.history.length + fs.length := by
    rw [hh]; simp
  constructor
  · have hlag : (ch.sendAll fs).capacity < (ch.sendAll fs).history.length - r.pos := by
      rw [hc, hlen]; omega
    rw [Channel.recv_lagged _ _ hlag, hc, hlen]
  · have hd := Channel.drain_insync (ch.sendAll fs) ch.capacity
      ⟨ch.history.length + fs.length - ch.capacity⟩
      (by rw [hlen]; simp; omega) (by rw [hc, hlen]; simp; omega)
    have e1 : ch.history.length + fs.length - ch.capacity + ch.capacity
        = ch.history.length + fs.length := by omega
    have e2 : ((ch.history ++ fs).drop
        (ch.history.length + fs.length - ch.capacity)).length ≤ ch.capacity := by
      simp; omega
    rw [hd, hh, List.take_of_length_le e2, e1]

/-- Witness for C1 at a concrete input: capacity 2, three publishes with
no intervening read; the first `receive` yields `Lagged(1)` and the next
receives deliver the two retained frames in order. -/
theorem lag_count_exact_witness :
    (Channel.sendAll ⟨2, []⟩ ["a", "b", "c"]).recv ⟨0⟩ = (.lagged 1, ⟨1⟩)
    ∧ (Channel.sendAll ⟨2, []⟩ ["a", "b", "c"]).drain ⟨1⟩ 2 = (["b", "c"], ⟨3⟩) :=
  lag_count_exact ⟨2, []⟩ ⟨0⟩ ["a", "b", "c"] (by decide) (by decide)

/-- Claim C3: for N publishes with N at most the capacity, a subscriber
that subscribed before the first publish and keeps pace receives exactly
those N frames, in publish order, with zero loss and no duplicates. -/
theorem in_pace_delivery_exact (ch : Channel) (fs : List Frame)
    (hN : fs.length ≤ ch.capacity) :
    (ch.sendAll fs).drain ch.subscribe fs.length =
      (fs, ⟨ch.history.length + fs.length⟩) := by
  have hh := Channel.sendAll_history ch fs
  have hc := Channel.sendAll_capacity ch fs
  have hlen : (ch.sendAll fs).history.length = ch.history.length + fs.length := by
    rw [hh]; simp
  have hd := Channel.drain_insync (ch.sendAll fs) fs.length ch.subscribe
    (by rw [hlen]; simp [Channel.subscribe]) (by rw [hc, hlen]; simp [Channel.subscribe]; omega)
  rw [hd, hh]
  have hsub : (ch.subscribe).pos = ch.history.length := rfl
  rw [hsub, List.drop_left, List.take_length]

/-- Witness for C3 at a concrete input: capacity 3, three publishes,
the subscriber attached first and drains all three in order. -/
theorem in_pace_delivery_exact_witness :
    (Channel.sendAll ⟨3, []⟩ ["a", "b", "c"]).drain (Channel.subscribe ⟨3, []⟩) 3 =
      (["a", "b", "c"], ⟨3⟩) :=
  in_pace_delivery_exact ⟨3, []⟩ ["a", "b", "c"] (by decide)

/-- Claim C4: every routing key present in the Registry resolves to the
unique Topic for that key (the handler subscribes to exactly it); for a
key not in the Registry, `sse_handler` terminates immediately with a 404
plain-text response whose body names the unknown key, and no
subscription is created. -/
theorem resolve_and_not_found (txs : List (String × Channel)) (key : String)
    (hnd : (txs.map Prod.fst).Nodup) :
    (∀ ch, (key, ch) ∈ txs →
      lookupA txs key = some ch ∧ sse_handler txs key = .stream key ch.subscribe)
    ∧ (lookupA txs key = none →
      sse_handler txs key =
        .notFound 404 "text/plain" ("Instrument \x27" ++ key ++ "\x27 not found")
      ∧ (sse_handler txs key).subscription = none) := by
  constructor
  · intro ch hmem
    have hl := lookupA_of_mem txs key ch hnd hmem
    exact ⟨hl, by simp [sse_handler, hl]⟩
  · intro hnone
    constructor
    · simp [sse_handler, hnone]
    · simp [sse_handler, hnone, SseStart.subscription]

/-- Witness for C4 at a concrete registry `{"X"}`: key `"X"` resolves
and subscribes at the tail; key `"Z"` yields the 404 with its name in
the body. -/
theorem resolve_and_not_found_witness :
    sse_handler [("X", (⟨512, []⟩ : Channel))] "X" = .stream "X" ⟨0⟩
    ∧ sse_handler [("X", (⟨512, []⟩ : Channel))] "Z" =
      .notFound 404 "text/plain" ("Instrument \x27Z\x27 not found") :=
  ⟨((resolve_and_not_found [("X", ⟨512, []⟩)] "X" (by decide)).1 ⟨512, []⟩ (by decide)).2,
    ((resolve_and_not_found [("X", ⟨512, []⟩)] "Z" (by decide)).2 (by decide)).1⟩

/-- Claim C7: a subscriber that attaches after frames were published
sees nothing from before its attach: the new cursor sits at the current
tail, an immediate `receive` finds nothing pending, and over any
subsequent execution the data frames it is delivered form a subsequence
of the frames published after the subscribe. -/
theorem subscribe_sees_only_future (ch : Channel) (ops : List SessionOp) :
    (ch.subscribe).pos = ch.history.length
    ∧ ch.recv ch.subscribe = (.empty, ch.subscribe)
    ∧ List.Sublist
        (SseOut.dataFrames (Session.run ⟨ch, ch.subscribe, []⟩ ops).written)
        (SessionOp.publishes ops) := by
  refine ⟨rfl, ?_, ?_⟩
  · unfold Channel.recv
    rw [if_pos (by exact Nat.le_refl _)]
  · have hinv : SessionInv ch.history.length ⟨ch, ch.subscribe, []⟩ :=
      ⟨Nat.le_refl _, Nat.le_refl _, by simp [SseOut.dataFrames]⟩
    have hfin := hinv.run ops
    obtain ⟨hf0, hf1, hf2⟩ := hfin
    have hhist := Session.run_ch_history ⟨ch, ch.subscribe, []⟩ ops
    have hdrop : ((Session.run ⟨ch, ch.subscribe, []⟩ ops).ch.history.drop ch.history.length)
        = SessionOp.publishes ops := by
      rw [hhist, List.drop_left]
    have htake := List.take_sublist
      ((Session.run ⟨ch, ch.subscribe, []⟩ ops).r.pos - ch.history.length)
      ((Session.run ⟨ch, ch.subscribe, []⟩ ops).ch.history.drop ch.history.length)
    exact hf2.trans (hdrop ▸ htake)

/-- Claim C10: over any execution of a streaming session's receive loop,
including executions with lag, the data frames written to the connection
form an order-preserving subsequence of the frames published to the
session's Topic — no duplicates, no reordering, no stale replacements;
lag events only drop frames and interleave warn notifications. -/
theorem session_writes_sublist (ch : Channel) (ops : List SessionOp) :
    List.Sublist
      (SseOut.dataFrames (Session.run ⟨ch, ch.subscribe, []⟩ ops).written)
      ((Session.run ⟨ch, ch.subscribe, []⟩ ops).ch.history) := by
  have hinv : SessionInv 0 ⟨ch, ch.subscribe, []⟩ :=
    ⟨Nat.zero_le _, Nat.le_refl _, by simp [SseOut.dataFrames]⟩
  obtain ⟨hf0, hf1, hf2⟩ := hinv.run ops
  rw [List.drop_zero] at hf2
  exact hf2.trans (List.take_sublist _ _)

/-- Claim C2 (heartbeat emitter modelled from the spec, its task being
absent from the source files): the emitter runs on a fixed 15-second
interval and on each tick publishes the heartbeat frame to every Topic
in the Registry; heartbeat frames occupy backlog capacity exactly like
data frames, so a heartbeat published while a subscriber is behind
increments that subscriber's lag total. -/
theorem heartbeat_every_topic_counts_lag (txs : List (String × Channel)) (k : String)
    (ch : Channel) (r : Receiver)
    (hbehind : ch.capacity < ch.history.length - r.pos) :
    heartbeat_interval_ms = 15000
    ∧ lookupA (heartbeat_tick txs) k = (lookupA txs k).map (fun c => c.send heartbeat_frame)
    ∧ ch.recv r = (.lagged (ch.history.length - ch.capacity - r.pos),
        ⟨ch.history.length - ch.capacity⟩)
    ∧ (ch.send heartbeat_frame).recv r =
        (.lagged (ch.history.length - ch.capacity - r.pos + 1),
          ⟨ch.history.length - ch.capacity + 1⟩) := by
  refine ⟨rfl, lookupA_heartbeat_tick txs k, Channel.recv_lagged ch r hbehind, ?_⟩
  have hlag2 : (ch.send heartbeat_frame).capacity <
      (ch.send heartbeat_frame).history.length - r.pos := by
    simp [Channel.send]; omega
  rw [Channel.recv_lagged _ _ hlag2]
  have e1 : (ch.send heartbeat_frame).history.length = ch.history.length + 1 := by
    simp [Channel.send]
  have e2 : (ch.send heartbeat_frame).capacity = ch.capacity := rfl
  rw [e1, e2]
  have e3 : ch.history.length + 1 - ch.capacity - r.pos
      = ch.history.length - ch.capacity - r.pos + 1 := by omega
  have e4 : ch.history.length + 1 - ch.capacity
      = ch.history.length - ch.capacity + 1 := by omega
  rw [e3, e4]

/-- Witness for C2 at a concrete input: one topic `"X"` with capacity 1
and two published frames; the subscriber at position 0 is behind, and
the heartbeat tick bumps its lag from 1 to 2. -/
theorem heartbeat_every_topic_counts_lag_witness :
    heartbeat_interval_ms = 15000
    ∧ lookupA (heartbeat_tick [("X", (⟨1, ["a", "b"]⟩ : Channel))]) "X" =
      (lookupA [("X", (⟨1, ["a", "b"]⟩ : Channel))] "X").map (fun c => c.send heartbeat_frame)
    ∧ (⟨1, ["a", "b"]⟩ : Channel).recv ⟨0⟩ = (.lagged 1, ⟨1⟩)
    ∧ ((⟨1, ["a", "b"]⟩ : Channel).send heartbeat_frame).recv ⟨0⟩ = (.lagged 2, ⟨2⟩) :=
  heartbeat_every_topic_counts_lag [("X", ⟨1, ["a", "b"]⟩)] "X" ⟨1, ["a", "b"]⟩ ⟨0⟩ (by decide)

/-- Claim C5: a malformed upstream document (not parseable as JSON, or
without a string `instrument` field) or one whose instrument matches no
registry key causes no publish to any Topic and no process fault: every
channel's state is left unchanged, a warning is logged, and the pump
loop is re-entered. -/
theorem pump_drops_malformed (txs : List (String × Channel)) (payload : String)
    (parsed : Option Json)
    (h : parsed = none
      ∨ ∃ j, parsed = some j ∧
        ((j.get "instrument").bind Json.asStr = none
          ∨ ∃ nm, (j.get "instrument").bind Json.asStr = some nm ∧ lookupA txs nm = none)) :
    ∃ w, redis_pump_step txs (.msg payload parsed) = .reenter txs (.warned w) := by
  rcases h with rfl | ⟨j, rfl, hj⟩
  · exact ⟨_, rfl⟩
  · rcases hj with hnone | ⟨nm, hnm, hlook⟩
    · exact ⟨"Warning: Received market_data message without instrument field",
        by simp [redis_pump_step, hnone]⟩
    · exact ⟨"Warning: Received message for unknown instrument: " ++ nm,
        by simp [redis_pump_step, hnm, hlook]⟩

/-- Witness for C5 at a concrete input: an unparseable payload is
dropped with a warning and the registry of channels is untouched. -/
theorem pump_drops_malformed_witness :
    ∃ w, redis_pump_step [("X", (⟨512, []⟩ : Channel))] (.msg "not json" none) =
      .reenter [("X", (⟨512, []⟩ : Channel))] (.warned w) :=
  pump_drops_malformed [("X", ⟨512, []⟩)] "not json" none (Or.inl rfl)

/-- Claim C6: the pump loop has no terminal failure state: every
iteration re-enters the loop (read errors sleep a fixed 100 ms and
retry; payload, parse and serialization problems never make
`redis_pump` return), so a run over any finite prefix of upstream
events completes without the function returning. -/
theorem pump_never_returns :
    (∀ txs ev, ∃ txs' a, redis_pump_step txs ev = .reenter txs' a)
    ∧ (∀ txs, redis_pump_step txs .recvErr = .reenter txs (.slept 100))
    ∧ (∀ txs evs, ∃ final acts, redis_pump_run txs evs = .ok (final, acts)) := by
  refine ⟨redis_pump_step_reenter, fun txs => rfl, ?_⟩
  intro txs evs
  induction evs generalizing txs with
  | nil => exact ⟨txs, [], rfl⟩
  | cons ev evs ih =>
    obtain ⟨txs', a, hstep⟩ := redis_pump_step_reenter txs ev
    obtain ⟨final, acts, hrun⟩ := ih txs'
    exact ⟨final, a :: acts, by simp [redis_pump_run, hstep, hrun]⟩

/-- Counterexample to claim C8 as stated: when the stored instrument
data is readable but cannot be parsed as JSON,
`serde_json::from_str(..).unwrap_or_else(|_| vec![])` substitutes the
empty list, `load_static_data` succeeds, and the process starts serving
with an empty Registry — a start-up path the claim says must not
exist. -/
theorem startup_serves_empty_registry :
    main_startup (.ok ()) badStaticStore (.ok ()) = .serving [] [] := rfl

/-- Claim C8 as amended: if the configuration/Redis client set-up fails,
or the upstream collaborator cannot be read during initial setup (the
static-data keys cannot be fetched as strings), the process refuses to
start with a clear diagnostic; but if the fetched static data merely
fails to parse as JSON, the Registry is constructed empty and the
process starts serving with it. -/
theorem startup_refusal_amended (e : String) (s1 s2 : RedisStaticStore)
    (ua ia : String)
    (h1 : s1.getString "static_data:underlyings" = .error e)
    (h2u : s2.getString "static_data:underlyings" = .ok ua)
    (h2i : s2.getString "static_data:instruments" = .ok ia)
    (h2p : ∀ str, s2.parseArr str = none) :
    main_startup (.ok ()) s1 (.ok ()) = .refused ("Failed to load static data: " ++ e)
    ∧ main_startup (.ok ()) s2 (.ok ()) = .serving [] []
    ∧ (∀ e', main_startup (.error e') s2 (.ok ()) =
        .refused ("Failed to load configuration: " ++ e')) := by
  refine ⟨?_, ?_, fun e' => rfl⟩
  · have hload : load_static_data s1 = .error e := by
      unfold load_static_data
      rw [h1]
      rfl
    simp [main_startup, hload]
  · have hload : load_static_data s2 = .ok [] := by
      unfold load_static_data
      simp only [h2u, h2i, h2p]
      rfl
    simp [main_startup, hload, create_instrument_channels]

/-- Witness for the amended C8 at concrete stores: an unreachable Redis
refuses start-up with a diagnostic; unparseable static data starts the
process with an empty Registry; a failed configuration load refuses
start-up. -/
theorem startup_refusal_amended_witness :
    main_startup (.ok ()) downStaticStore (.ok ()) =
      .refused ("Failed to load static data: " ++ "connection refused")
    ∧ main_startup (.ok ()) badStaticStore (.ok ()) = .serving [] []
    ∧ (∀ e', main_startup (.error e') badStaticStore (.ok ()) =
        .refused ("Failed to load configuration: " ++ e')) :=
  startup_refusal_amended "connection refused" downStaticStore badStaticStore
    "not json" "not json" rfl rfl rfl (fun _ => rfl)

/-- Claim C9, evaluated at the failing input (code bug): for a Registry
holding the single instrument `AAPL` with underlying `EQUITY`, the
endpoint's array entry does not pair the key with its underlying
grouping string — the closure `|(name, underlying)|` in
`get_instruments` binds the whole `InstrumentDetails` value to
`underlying`, so the `"underlying"` field holds the entire details
object (including `absolute_limit`, `tick_size`, ...), not the grouping
`"EQUITY"`. -/
theorem get_instruments_at_failing_input :
    get_instruments [("AAPL", aaplDetails)] =
      .arr [.obj [("name", .str "AAPL"),
        ("underlying", .obj [("name", .str "AAPL"), ("underlying", .str "EQUITY"),
          ("absolute_limit", .num 1000), ("delta_limit", .num 50000),
          ("tick_size", .num (1 / 100)), ("max_order_size", .num 10000)])]] := rfl
